import Mathlib

/-!
Verification of the MITIE NER trainer public contract
(`mitielib/include/mitie/ner_trainer.h`).

The repository snapshot contains only the header with the documented
contracts of `ner_training_instance` and `ner_trainer`; the translation
below embeds the data members declared in the header and models each
member-function body from the specification, as noted on each definition.
Mutating C++ member functions become pure functions from the old state to
the new state; functions whose contract can be violated return
`Except NerError`.  `unsigned long` values (token indices, lengths,
counts, label ids, thread counts) are modelled as `Nat`; the `double`
hyperparameter `beta` is modelled as `Rat`, which is faithful for the
specified behaviour (a sign test and exact storage/retrieval, no
floating-point arithmetic).
-/

namespace Mitie

/-- Modelled from the spec: the error kinds of §7 of the specification
(the implementation file raising them is not in the snapshot).
`mismatchedLengthsError` stands for the otherwise-unnamed failure of a
bulk `add` whose `ranges` and `labels` collections have different
lengths. -/
inductive NerError where
  | invalidSpanError
  | emptyCorpusError
  | invalidHyperparameterError
  | mismatchedLengthsError
deriving DecidableEq, Repr

/-- The data members of `ner_training_instance` as declared in the
header: an immutable token sequence, the annotated half-open spans, and
the parallel label strings. -/
structure ner_training_instance where
  tokens : List String
  chunks : List (Nat × Nat)
  chunk_labels : List String
deriving DecidableEq, Repr

/-- Modelled from the spec: the constructor
`ner_training_instance(tokens)` (body not in the snapshot) — records the
tokens and starts with no entity annotations. -/
def ner_training_instance.mkInstance (tokens : List String) : ner_training_instance :=
  ⟨tokens, [], []⟩

/-- Modelled from the spec: `num_tokens()` (body not in the snapshot)
returns the number of text tokens. -/
def ner_training_instance.num_tokens (p : ner_training_instance) : Nat :=
  p.tokens.length

/-- Modelled from the spec: `num_entities()` (body not in the snapshot)
returns the number of entities added so far. -/
def ner_training_instance.num_entities (p : ner_training_instance) : Nat :=
  p.chunks.length

/-- Modelled from the spec: the half-open-interval intersection test on
two spans, used by `overlaps_any_entity` (body not in the snapshot). -/
def spansOverlap (a b : Nat × Nat) : Bool :=
  decide (a.1 < b.2) && decide (b.1 < a.2)

/-- Modelled from the spec: `overlaps_any_entity(start, length)` (body
not in the snapshot) — true iff the half-open range
`[start, start+length)` intersects one of the spans already added. -/
def ner_training_instance.overlaps_any_entity (p : ner_training_instance) (start length : Nat) : Bool :=
  p.chunks.any (fun c => spansOverlap (start, start + length) c)

/-- Modelled from the spec: the start/length overload
`add_entity(start, length, label)` (body not in the snapshot) — fails
with `InvalidSpanError` on a zero-length or out-of-bounds span or one
overlapping an existing entity; otherwise appends the span and its
label. -/
def ner_training_instance.add_entity (p : ner_training_instance) (start length : Nat) (label : String) : Except NerError ner_training_instance :=
  if length = 0 ∨ p.tokens.length < start + length ∨ p.overlaps_any_entity start length = true then
    .error .invalidSpanError
  else
    .ok ⟨p.tokens, p.chunks ++ [(start, start + length)], p.chunk_labels ++ [label]⟩

/-- Modelled from the spec: the half-open-range overload
`add_entity(range, label)` (body not in the snapshot) — interprets
`range` as a half-open range rather than a start/length pair. -/
def ner_training_instance.add_entity_range (p : ner_training_instance) (range : Nat × Nat) (label : String) : Except NerError ner_training_instance :=
  p.add_entity range.1 (range.2 - range.1) label

/-- The `std::map<std::string, unsigned long>` member `label_to_id`,
embedded as an association list in first-insertion order (insertions
only ever append previously unseen keys, so lookups agree with the
C++ map). -/
abbrev LabelMap := List (String × Nat)

/-- The data members of `ner_trainer` declared in the header, minus the
`total_word_feature_extractor` (an external collaborator, out of scope
per the specification). -/
structure ner_trainer where
  beta : Rat
  num_threads : Nat
  label_to_id : LabelMap
  sentences : List (List String)
  chunks : List (List (Nat × Nat))
  chunk_labels : List (List Nat)
deriving DecidableEq, Repr

/-- Modelled from the spec: the freshly constructed trainer (constructor
body not in the snapshot) — `beta` defaults to 0.5, `num_threads` to 16,
the corpus starts empty.  Loading the word-feature file is out of
scope. -/
def ner_trainer.init : ner_trainer :=
  ⟨(1 : Rat) / 2, 16, [], [], [], []⟩

/-- Modelled from the spec: `size()` (body not in the snapshot) — the
number of training instances added so far. -/
def ner_trainer.size (t : ner_trainer) : Nat :=
  t.sentences.length

/-- Modelled from the spec: `get_label_id(str)` (body not in the
snapshot) — returns the id of a seen label, and registers an unseen
label with the next dense id (the current map size).  Phrased on the
map alone since it touches no other trainer state. -/
def getLabelId (m : LabelMap) (s : String) : Nat × LabelMap :=
  match m.lookup s with
  | some id => (id, m)
  | none => (m.length, m ++ [(s, m.length)])

/-- Modelled from the spec: the loop inside `add(instance)` (body not in
the snapshot) converting each label string to its id via
`get_label_id`, threading the map through. -/
def getLabelIds (m : LabelMap) : List String → List Nat × LabelMap
  | [] => ([], m)
  | s :: rest =>
    let r := getLabelId m s
    let r2 := getLabelIds r.2 rest
    (r.1 :: r2.1, r2.2)

/-- Modelled from the spec: `add(instance)` (body not in the snapshot) —
appends the instance's tokens, spans and id-mapped labels to the three
corpus collections, registering unseen labels along the way. -/
def ner_trainer.add (t : ner_trainer) (item : ner_training_instance) : ner_trainer :=
  let r := getLabelIds t.label_to_id item.chunk_labels
  ⟨t.beta, t.num_threads, r.2, t.sentences ++ [item.tokens], t.chunks ++ [item.chunks], t.chunk_labels ++ [r.1]⟩

/-- Modelled from the spec: the loop inside the single-sentence bulk
`add` (body not in the snapshot) adding every `(range, label)` pair to a
training instance in order, stopping at the first invalid pair. -/
def addEntitiesFold (p : ner_training_instance) (pairs : List ((Nat × Nat) × String)) : Except NerError ner_training_instance :=
  pairs.foldlM (fun q rl => q.add_entity_range rl.1 rl.2) p

/-- Modelled from the spec: the bulk overload
`add(tokens, ranges, labels)` (body not in the snapshot) — checks the
parallel lengths, builds one `ner_training_instance` by adding every
pair, and on success adds it to the corpus; any failure fails the whole
call with the corpus untouched. -/
def ner_trainer.add_bulk (t : ner_trainer) (tokens : List String) (ranges : List (Nat × Nat)) (labels : List String) : Except NerError ner_trainer :=
  if ranges.length = labels.length then
    match addEntitiesFold (ner_training_instance.mkInstance tokens) (ranges.zip labels) with
    | .ok inst => .ok (t.add inst)
    | .error e => .error e
  else
    .error .mismatchedLengthsError

/-- Modelled from the spec: the batch overload
`add(tokens, ranges, labels)` over parallel vectors of instances (body
not in the snapshot) — performs the single-sentence bulk add for every
triple in order, failing the whole call on the first invalid
instance. -/
def ner_trainer.add_batch (t : ner_trainer) (tokens : List (List String)) (ranges : List (List (Nat × Nat))) (labels : List (List String)) : Except NerError ner_trainer :=
  (tokens.zip (ranges.zip labels)).foldlM (fun tr x => tr.add_bulk x.1 x.2.1 x.2.2) t

/-- Modelled from the spec: `get_num_threads()` (body not in the
snapshot). -/
def ner_trainer.get_num_threads (t : ner_trainer) : Nat :=
  t.num_threads

/-- Modelled from the spec: `set_num_threads(num)` (body not in the
snapshot) — rejects a zero thread count with
`InvalidHyperparameterError`, otherwise stores the count. -/
def ner_trainer.set_num_threads (t : ner_trainer) (num : Nat) : Except NerError ner_trainer :=
  if num = 0 then
    .error .invalidHyperparameterError
  else
    .ok ⟨t.beta, num, t.label_to_id, t.sentences, t.chunks, t.chunk_labels⟩

/-- Modelled from the spec: `get_beta()` (body not in the snapshot). -/
def ner_trainer.get_beta (t : ner_trainer) : Rat :=
  t.beta

/-- Modelled from the spec: `set_beta(new_beta)` (body not in the
snapshot) — rejects a negative value with
`InvalidHyperparameterError`, otherwise stores it. -/
def ner_trainer.set_beta (t : ner_trainer) (new_beta : Rat) : Except NerError ner_trainer :=
  if new_beta < 0 then
    .error .invalidHyperparameterError
  else
    .ok ⟨new_beta, t.num_threads, t.label_to_id, t.sentences, t.chunks, t.chunk_labels⟩

/-- The label vocabulary in id order: since `label_to_id` assigns the
ids `0, 1, 2, …` in insertion order, the keys in list order are the
labels in id order. -/
def ner_trainer.get_all_labels (t : ner_trainer) : List String :=
  t.label_to_id.map Prod.fst

/-- The output artifact of `train()`.  Its segmenter, classifier and
word-feature members are opaque external collaborators per the
specification; only the label vocabulary is observable here. -/
structure named_entity_extractor where
  tag_name_strings : List String
deriving DecidableEq, Repr

/-- Modelled from the spec: `train()` (body not in the snapshot, and the
numeric optimisation inside it is out of scope) — fails with
`EmptyCorpusError` on an empty corpus and otherwise returns the fully
assembled extractor carrying the label vocabulary. -/
def ner_trainer.train (t : ner_trainer) : Except NerError named_entity_extractor :=
  if t.size = 0 then
    .error .emptyCorpusError
  else
    .ok ⟨t.get_all_labels⟩

/-- Modelled from the spec: the private helper
`count_of_least_common_label(labels)` (body not in the snapshot) — the
minimum, over the distinct label ids occurring in `labels`, of the
number of occurrences of that id.  The fold's start value exceeds every
occurrence count, so on a non-empty input it never wins. -/
def count_of_least_common_label (labels : List Nat) : Nat :=
  (labels.dedup.map (fun l => labels.count l)).foldl Nat.min (labels.length + 1)

/-- A well-formed span: non-empty and within the first `n` token
indices. -/
def rangeOk (n : Nat) (r : Nat × Nat) : Prop :=
  r.1 < r.2 ∧ r.2 ≤ n

/-- Validity of the arguments of one single-sentence bulk `add` call:
parallel lengths, every range well-formed, no two ranges
overlapping. -/
def bulkValid (tokens : List String) (ranges : List (Nat × Nat)) (labels : List String) : Prop :=
  ranges.length = labels.length ∧
    (∀ r ∈ ranges, rangeOk tokens.length r) ∧
    List.Pairwise (fun a b => spansOverlap a b = false) ranges

/-- The corpus invariant of the specification: `sentences`, `chunks` and
`chunk_labels` have equal length, and the per-instance span and label
lists are parallel. -/
def corpusInv (t : ner_trainer) : Prop :=
  t.sentences.length = t.chunks.length ∧
    List.Forall₂ (fun c l => List.length c = List.length l) t.chunks t.chunk_labels

/-- A label map assigning the dense ids `0, 1, 2, …` in list order. -/
def wellFormedMap (m : LabelMap) : Prop :=
  ∀ i : Fin m.length, (m.get i).2 = (i : Nat)

/-- The entries `get_label_id` appends while processing a label list:
each previously unseen label, in the order first encountered, paired
with the next dense id.  This is the specification's description of
label registration, to be compared with `getLabelIds`. -/
def newLabelEntries (m : LabelMap) : List String → LabelMap
  | [] => []
  | s :: rest =>
    match m.lookup s with
    | some _ => newLabelEntries m rest
    | none => (s, m.length) :: newLabelEntries (m ++ [(s, m.length)]) rest

/-- The specification's reading of the single-sentence bulk `add`:
construct `ner_training_instance(tokens)`, call
`add_entity(ranges[i], labels[i])` for each `i` in order, then call
`add(instance)`. -/
def addEntitiesSeq : ner_training_instance → List (Nat × Nat) → List String → Except NerError ner_training_instance
  | p, r :: rs, l :: ls =>
    match p.add_entity_range r l with
    | .ok p2 => addEntitiesSeq p2 rs ls
    | .error e => .error e
  | p, _, _ => .ok p

/-- The specification's reading of the single-sentence bulk `add` as a
composition: build the instance entity by entity, then add it. -/
def add_bulk_spec (t : ner_trainer) (tokens : List String) (ranges : List (Nat × Nat)) (labels : List String) : Except NerError ner_trainer :=
  if ranges.length = labels.length then
    (addEntitiesSeq (ner_training_instance.mkInstance tokens) ranges labels).map t.add
  else
    .error .mismatchedLengthsError

/-- The specification's reading of the batch `add`: perform
`add(tokens[i], ranges[i], labels[i])` for all `i` in order. -/
def add_batch_spec : ner_trainer → List (List String) → List (List (Nat × Nat)) → List (List String) → Except NerError ner_trainer
  | t, tk :: tks, r :: rs, l :: ls =>
    match t.add_bulk tk r l with
    | .ok t2 => add_batch_spec t2 tks rs ls
    | .error e => .error e
  | t, _, _, _ => .ok t

end Mitie

namespace Mitie

/-! ### Basic facts about `add_entity` -/

theorem spansOverlap_comm (a b : Nat × Nat) : spansOverlap a b = spansOverlap b a := by
simp only [spansOverlap, Bool.and_comm]

theorem spansOverlap_eq_true (a b : Nat × Nat) :
    spansOverlap a b = true ↔ a.1 < b.2 ∧ b.1 < a.2 := by
simp [spansOverlap]

theorem overlaps_any_entity_eq_false (p : ner_training_instance) (start length : Nat) :
    p.overlaps_any_entity start length = false ↔
      ∀ c ∈ p.chunks, spansOverlap (start, start + length) c = false := by
simp [ner_training_instance.overlaps_any_entity, List.any_eq_false]

theorem add_entity_ok_elim (p : ner_training_instance) (start length : Nat) (lab : String)
    (q : ner_training_instance) (h : p.add_entity start length lab = .ok q) :
    q.tokens = p.tokens ∧ q.chunks = p.chunks ++ [(start, start + length)] ∧
      q.chunk_labels = p.chunk_labels ++ [lab] ∧ length ≠ 0 ∧
      start + length ≤ p.tokens.length ∧
      ∀ c ∈ p.chunks, spansOverlap (start, start + length) c = false := by
unfold ner_training_instance.add_entity at h
split at h
case isTrue => exact absurd h (by simp)
case isFalse hc =>
  push_neg at hc
  obtain ⟨h1, h2, h3⟩ := hc
  obtain rfl : q = ⟨p.tokens, p.chunks ++ [(start, start + length)], p.chunk_labels ++ [lab]⟩ := by
    exact (Except.ok.injEq _ _).mp h.symm
  refine ⟨rfl, rfl, rfl, h1, by omega, ?_⟩
  exact (overlaps_any_entity_eq_false p start length).mp (by simpa using h3)

theorem add_entity_ok_intro (p : ner_training_instance) (start length : Nat) (lab : String)
    (h1 : length ≠ 0) (h2 : start + length ≤ p.tokens.length)
    (h3 : p.overlaps_any_entity start length = false) :
    p.add_entity start length lab =
      .ok ⟨p.tokens, p.chunks ++ [(start, start + length)], p.chunk_labels ++ [lab]⟩ := by
unfold ner_training_instance.add_entity
rw [if_neg]
push_neg
exact ⟨h1, by omega, by simp [h3]⟩

theorem add_entity_error_iff (p : ner_training_instance) (start length : Nat) (lab : String) :
    p.add_entity start length lab = .error .invalidSpanError ↔
      (length = 0 ∨ p.tokens.length < start + length ∨
        p.overlaps_any_entity start length = true) := by
unfold ner_training_instance.add_entity
split
case isTrue hc => simpa using hc
case isFalse hc => simpa using hc

end Mitie

namespace Mitie

/-! ### Claims C1, C2 and C10: the training-instance operations -/

/-- C1: for every `ner_training_instance` and attempted span, either
`add_entity` overload fails with `InvalidSpanError` exactly when the
span is zero-length, out of bounds, or overlaps a previously added span
(so no post-state with a changed entity count exists), and on success
appends the span and its label in insertion order, increasing
`num_entities()` by exactly one. -/
theorem add_entity_error_iff_and_appends
    (p : ner_training_instance) (start length a b : Nat) (lab : String) :
    (p.add_entity start length lab = .error .invalidSpanError ↔
      (length = 0 ∨ p.num_tokens < start + length ∨
        p.overlaps_any_entity start length = true)) ∧
    (p.add_entity_range (a, b) lab = .error .invalidSpanError ↔
      (b ≤ a ∨ p.num_tokens < b ∨ p.overlaps_any_entity a (b - a) = true)) ∧
    (length ≠ 0 → start + length ≤ p.num_tokens →
      p.overlaps_any_entity start length = false →
      p.add_entity start length lab =
        .ok ⟨p.tokens, p.chunks ++ [(start, start + length)], p.chunk_labels ++ [lab]⟩) ∧
    (∀ q, p.add_entity start length lab = .ok q → q.num_entities = p.num_entities + 1) := by
refine ⟨add_entity_error_iff p start length lab, ?_, ?_, ?_⟩
· rw [ner_training_instance.add_entity_range, add_entity_error_iff]
  constructor
  · rintro (h1 | h2 | h3)
    · exact Or.inl (by omega)
    · by_cases hab : b ≤ a
      · exact Or.inl hab
      · exact Or.inr (Or.inl (by simp only [ner_training_instance.num_tokens] at *; omega))
    · exact Or.inr (Or.inr h3)
  · rintro (h1 | h2 | h3)
    · exact Or.inl (by omega)
    · by_cases hab : b ≤ a
      · exact Or.inl (by omega)
      · exact Or.inr (Or.inl (by simp only [ner_training_instance.num_tokens] at *; omega))
    · exact Or.inr (Or.inr h3)
· intro h1 h2 h3
  exact add_entity_ok_intro p start length lab h1 h2 h3
· intro q hq
  obtain ⟨-, hch, -⟩ := add_entity_ok_elim p start length lab q hq
  simp [ner_training_instance.num_entities, hch]

/-- Witness for C1 at a concrete instance: adding the span `[0, 1)` to a
fresh two-token instance succeeds and appends the span and label. -/
theorem add_entity_error_iff_and_appends_witness :
    (ner_training_instance.mkInstance ["John", "smith"]).add_entity 0 1 "PERSON" =
      .ok ⟨["John", "smith"], [(0, 1)], ["PERSON"]⟩ := by
have h := (add_entity_error_iff_and_appends
  (ner_training_instance.mkInstance ["John", "smith"]) 0 1 0 1 "PERSON").2.2.1
  (by decide) (by decide) (by decide)
simpa [ner_training_instance.mkInstance] using h

/-- C2: under the documented preconditions (`length > 0` and
`start+length-1 < num_tokens()`), and for spans that previously passed
`add_entity` validation (every stored chunk is a genuine half-open
range), `overlaps_any_entity(start, length)` is true exactly when
`[start, start+length)` shares a token index with some stored span; on
an instance with no entities it is false. -/
theorem overlaps_any_entity_iff_intersects
    (p : ner_training_instance) (start length : Nat)
    (hlen : 0 < length) (hbound : start + length - 1 < p.num_tokens)
    (hwf : ∀ c ∈ p.chunks, c.1 < c.2) :
    (p.overlaps_any_entity start length = true ↔
      ∃ c ∈ p.chunks, ∃ k, (start ≤ k ∧ k < start + length) ∧ (c.1 ≤ k ∧ k < c.2)) ∧
    (p.num_entities = 0 → p.overlaps_any_entity start length = false) := by
constructor
· rw [ner_training_instance.overlaps_any_entity, List.any_eq_true]
  constructor
  · rintro ⟨c, hc, hov⟩
    rw [spansOverlap_eq_true] at hov
    have hcw := hwf c hc
    exact ⟨c, hc, max start c.1, by omega, by omega⟩
  · rintro ⟨c, hc, k, ⟨hk1, hk2⟩, hk3, hk4⟩
    refine ⟨c, hc, ?_⟩
    rw [spansOverlap_eq_true]
    exact ⟨by omega, by omega⟩
· intro h0
  have : p.chunks = [] := List.length_eq_zero.mp h0
  simp [ner_training_instance.overlaps_any_entity, this]

/-- Witness for C2 at a concrete instance: on an instance holding the
span `[0, 1)`, the query span `[0, 2)` overlaps, and the theorem
produces the concrete shared token index. -/
theorem overlaps_any_entity_iff_intersects_witness :
    ∃ c ∈ (⟨["a", "b"], [(0, 1)], ["X"]⟩ : ner_training_instance).chunks,
      ∃ k, (0 ≤ k ∧ k < 0 + 2) ∧ (c.1 ≤ k ∧ k < c.2) :=
(overlaps_any_entity_iff_intersects ⟨["a", "b"], [(0, 1)], ["X"]⟩ 0 2
  (by decide) (by decide) (by decide)).1.mp (by decide)

/-- C10: the two `add_entity` overloads agree — on every valid half-open
range `[a, b)` the range overload computes exactly what the
start/length overload computes at `(a, b - a)`, and on success the
recorded span is exactly `(a, b)` with the label appended and the
entity count increased by one. -/
theorem add_entity_overloads_agree
    (p : ner_training_instance) (a b : Nat) (lab : String)
    (hab : a < b) (hb : b ≤ p.num_tokens) :
    p.add_entity_range (a, b) lab = p.add_entity a (b - a) lab ∧
    (∀ q, p.add_entity_range (a, b) lab = .ok q →
      q.tokens = p.tokens ∧ q.chunks = p.chunks ++ [(a, b)] ∧
        q.chunk_labels = p.chunk_labels ++ [lab] ∧
        q.num_entities = p.num_entities + 1) := by
refine ⟨rfl, ?_⟩
intro q hq
rw [ner_training_instance.add_entity_range] at hq
obtain ⟨ht, hch, hlb, -, -, -⟩ := add_entity_ok_elim p a (b - a) lab q hq
have hsum : a + (b - a) = b := by omega
rw [hsum] at hch
exact ⟨ht, hch, hlb, by simp [ner_training_instance.num_entities, hch]⟩

/-- Witness for C10 at a concrete instance: adding the range `(1, 3)` to
a fresh three-token instance records exactly the span `(1, 3)`. -/
theorem add_entity_overloads_agree_witness :
    (ner_training_instance.mkInstance ["a", "b", "c"]).add_entity_range (1, 3) "X" =
      (ner_training_instance.mkInstance ["a", "b", "c"]).add_entity 1 2 "X" ∧
    (ner_training_instance.mkInstance ["a", "b", "c"]).chunks ++ [(1, 3)] = [(1, 3)] := by
have h := add_entity_overloads_agree (ner_training_instance.mkInstance ["a", "b", "c"])
  1 3 "X" (by decide) (by decide)
exact ⟨h.1, by decide⟩

end Mitie

namespace Mitie

/-! ### Claims C5 and C3: hyperparameter setters and the empty-corpus guard -/

/-- C5: `set_beta` fails with `InvalidHyperparameterError` exactly for a
negative argument and otherwise stores the value so that `get_beta`
returns it; `set_num_threads` fails with the same error exactly for a
zero argument and otherwise stores the count so that `get_num_threads`
returns it. -/
theorem set_beta_set_num_threads_roundtrip (t : ner_trainer) (b : Rat) (n : Nat) :
    (t.set_beta b = .error .invalidHyperparameterError ↔ b < 0) ∧
    (0 ≤ b → ∃ t2, t.set_beta b = .ok t2 ∧ t2.get_beta = b) ∧
    (t.set_num_threads n = .error .invalidHyperparameterError ↔ n = 0) ∧
    (0 < n → ∃ t2, t.set_num_threads n = .ok t2 ∧ t2.get_num_threads = n) := by
refine ⟨?_, ?_, ?_, ?_⟩
· rw [ner_trainer.set_beta]
  split
  case isTrue h => simpa using h
  case isFalse h => simpa using h
· intro hb
  rw [ner_trainer.set_beta, if_neg (by exact not_lt.mpr hb)]
  exact ⟨_, rfl, rfl⟩
· rw [ner_trainer.set_num_threads]
  split
  case isTrue h => simpa using h
  case isFalse h => simpa using h
· intro hn
  rw [ner_trainer.set_num_threads, if_neg (by omega)]
  exact ⟨_, rfl, rfl⟩

/-- Witness for C5 at concrete values: on a fresh trainer,
`set_beta 2` succeeds and round-trips, and `set_num_threads 0` is
rejected. -/
theorem set_beta_set_num_threads_roundtrip_witness :
    (∃ t2, ner_trainer.init.set_beta 2 = .ok t2 ∧ t2.get_beta = 2) ∧
    ner_trainer.init.set_num_threads 0 = .error .invalidHyperparameterError := by
have h := set_beta_set_num_threads_roundtrip ner_trainer.init 2 0
exact ⟨h.2.1 (by norm_num), h.2.2.1.mpr rfl⟩

/-- C3: `train()` fails with `EmptyCorpusError` exactly when the corpus
is empty, and on a non-empty corpus returns a fully built extractor;
being `Except`-valued, it never yields a partial artifact. -/
theorem train_requires_nonempty_corpus (t : ner_trainer) :
    (t.train = .error .emptyCorpusError ↔ t.size = 0) ∧
    (0 < t.size → ∃ ex, t.train = .ok ex) := by
constructor
· rw [ner_trainer.train]
  split
  case isTrue h => simpa using h
  case isFalse h => simpa using h
· intro hs
  rw [ner_trainer.train, if_neg (by omega)]
  exact ⟨_, rfl⟩

/-- Witness for C3 at a concrete trainer: a fresh trainer has an empty
corpus and `train()` fails with `EmptyCorpusError`, while after one
`add` it returns an extractor. -/
theorem train_requires_nonempty_corpus_witness :
    ner_trainer.init.train = .error .emptyCorpusError ∧
    ∃ ex, (ner_trainer.init.add (ner_training_instance.mkInstance ["a"])).train = .ok ex :=
⟨(train_requires_nonempty_corpus ner_trainer.init).1.mpr rfl,
  (train_requires_nonempty_corpus
    (ner_trainer.init.add (ner_training_instance.mkInstance ["a"]))).2 (by decide)⟩

/-! ### Claim C9: the least-common-label count -/

theorem foldl_min_le_init (xs : List Nat) (a : Nat) : xs.foldl Nat.min a ≤ a := by
induction xs generalizing a with
| nil => exact Nat.le_refl a
| cons x xs ih => exact Nat.le_trans (ih (Nat.min a x)) (Nat.min_le_left a x)

theorem foldl_min_le_mem (xs : List Nat) (a x : Nat) (hx : x ∈ xs) :
    xs.foldl Nat.min a ≤ x := by
induction xs generalizing a with
| nil => cases hx
| cons y ys ih =>
  rcases List.mem_cons.mp hx with rfl | hmem
  · exact Nat.le_trans (foldl_min_le_init ys (Nat.min a x)) (Nat.min_le_right a x)
  · exact ih (Nat.min a y) hmem

theorem foldl_min_eq_init_or_mem (xs : List Nat) (a : Nat) :
    xs.foldl Nat.min a = a ∨ xs.foldl Nat.min a ∈ xs := by
induction xs generalizing a with
| nil => exact Or.inl rfl
| cons x xs ih =>
  rcases ih (Nat.min a x) with h | h
  · rcases Nat.le_total a x with hax | hxa
    · exact Or.inl (by rw [List.foldl_cons, h]; exact Nat.min_eq_left hax)
    · refine Or.inr (List.mem_cons.mpr (Or.inl ?_))
      rw [List.foldl_cons, h]
      exact Nat.min_eq_right hxa
  · exact Or.inr (List.mem_cons.mpr (Or.inr (by simpa using h)))

/-- C9: on a non-empty list of label ids,
`count_of_least_common_label` is a lower bound on the occurrence count
of every id occurring in the list, and is attained by some occurring
id — i.e. it is the occurrence count of the least frequent label. -/
theorem count_of_least_common_label_is_min (labels : List Nat) (hne : labels ≠ []) :
    (∀ l ∈ labels, count_of_least_common_label labels ≤ labels.count l) ∧
    (∃ l ∈ labels, count_of_least_common_label labels = labels.count l) := by
have hle : ∀ l ∈ labels, count_of_least_common_label labels ≤ labels.count l := by
  intro l hl
  refine foldl_min_le_mem _ _ _ ?_
  exact List.mem_map_of_mem _ (List.mem_dedup.mpr hl)
refine ⟨hle, ?_⟩
rcases foldl_min_eq_init_or_mem (labels.dedup.map (fun l => labels.count l))
    (labels.length + 1) with h | h
· obtain ⟨l0, rest, rfl⟩ := List.exists_cons_of_ne_nil hne
  have h1 := hle l0 (List.mem_cons_self l0 rest)
  have h2 := List.count_le_length l0 (l0 :: rest)
  simp only [count_of_least_common_label] at h1
  rw [h] at h1
  omega
· obtain ⟨l, hl, hcount⟩ := List.mem_map.mp h
  exact ⟨l, List.mem_dedup.mp hl, hcount.symm⟩

/-- Witness for C9 at a concrete list: on `[7, 7, 3]` the least common
label is `3`, with occurrence count 1. -/
theorem count_of_least_common_label_is_min_witness :
    ∃ l ∈ [7, 7, 3], count_of_least_common_label [7, 7, 3] = List.count l [7, 7, 3] :=
(count_of_least_common_label_is_min [7, 7, 3] (by decide)).2

end Mitie

namespace Mitie

/-! ### The label vocabulary: lemmas about `getLabelId`/`getLabelIds` -/

theorem lookup_append_some (m rest : LabelMap) (s : String) (id : Nat)
    (h : m.lookup s = some id) : (m ++ rest).lookup s = some id := by
induction m with
| nil => simp [List.lookup] at h
| cons kv tl ih =>
  obtain ⟨k, v⟩ := kv
  rw [List.cons_append]
  simp only [List.lookup] at h ⊢
  cases hk : (s == k) with
  | true => rw [hk] at h; simpa using h
  | false => rw [hk] at h; exact ih h

theorem lookup_append_none (m rest : LabelMap) (s : String)
    (h : m.lookup s = none) : (m ++ rest).lookup s = rest.lookup s := by
induction m with
| nil => simp
| cons kv tl ih =>
  obtain ⟨k, v⟩ := kv
  rw [List.cons_append]
  simp only [List.lookup] at h ⊢
  cases hk : (s == k) with
  | true => rw [hk] at h; simp at h
  | false => rw [hk] at h; exact ih h

theorem getLabelIds_map_eq (ls : List String) (m : LabelMap) :
    (getLabelIds m ls).2 = m ++ newLabelEntries m ls := by
induction ls generalizing m with
| nil => simp [getLabelIds, newLabelEntries]
| cons s rest ih =>
  cases hlk : m.lookup s with
  | some id =>
    simp only [getLabelIds, getLabelId, newLabelEntries, hlk]
    exact ih m
  | none =>
    simp only [getLabelIds, getLabelId, newLabelEntries, hlk]
    rw [ih (m ++ [(s, m.length)]), List.append_assoc]
    rfl

theorem getLabelIds_ids_length (ls : List String) (m : LabelMap) :
    (getLabelIds m ls).1.length = ls.length := by
induction ls generalizing m with
| nil => rfl
| cons s rest ih =>
  cases hlk : m.lookup s with
  | some id =>
    simp only [getLabelIds, getLabelId, hlk, List.length_cons]
    rw [ih]
  | none =>
    simp only [getLabelIds, getLabelId, hlk, List.length_cons]
    rw [ih]

theorem getLabelIds_lookup (ls : List String) (m : LabelMap) :
    List.Forall₂ (fun s id => (getLabelIds m ls).2.lookup s = some id)
      ls (getLabelIds m ls).1 := by
induction ls generalizing m with
| nil => exact List.Forall₂.nil
| cons s rest ih =>
  cases hlk : m.lookup s with
  | some id =>
    simp only [getLabelIds, getLabelId, hlk]
    refine List.forall₂_cons.mpr ⟨?_, ?_⟩
    · rw [getLabelIds_map_eq]
      exact lookup_append_some m _ s id hlk
    · exact ih m
  | none =>
    simp only [getLabelIds, getLabelId, hlk]
    refine List.forall₂_cons.mpr ⟨?_, ?_⟩
    · rw [getLabelIds_map_eq, List.append_assoc]
      rw [lookup_append_none m _ s hlk]
      rw [List.cons_append]
      simp [List.lookup]
    · exact ih (m ++ [(s, m.length)])

theorem wellFormedMap_append_single (m : LabelMap) (s : String)
    (h : wellFormedMap m) : wellFormedMap (m ++ [(s, m.length)]) := by
intro i
rw [List.get_eq_getElem]
by_cases hi : (i : Nat) < m.length
· rw [List.getElem_append_left hi]
  have := h ⟨i, hi⟩
  rw [List.get_eq_getElem] at this
  exact this
· have hlen : (i : Nat) = m.length := by
    have := i.isLt
    simp only [List.length_append, List.length_singleton] at this
    omega
  rw [List.getElem_concat_length m (s, m.length) i hlen]
  exact hlen.symm

theorem getLabelIds_wellFormed (ls : List String) (m : LabelMap)
    (h : wellFormedMap m) : wellFormedMap (getLabelIds m ls).2 := by
induction ls generalizing m with
| nil => exact h
| cons s rest ih =>
  cases hlk : m.lookup s with
  | some id =>
    simp only [getLabelIds, getLabelId, hlk]
    exact ih m h
  | none =>
    simp only [getLabelIds, getLabelId, hlk]
    exact ih (m ++ [(s, m.length)]) (wellFormedMap_append_single m s h)

/-! ### Claim C7: `add(instance)` appends and registers labels -/

/-- C7: `add(instance)` increases `size()` by one and appends the
instance's tokens, spans and mapped labels; the label map grows only by
appending previously unseen labels (so registered ids never change),
each of the instance's labels ends up registered with the id recorded
for it, new labels get entries exactly per `newLabelEntries` (next
dense id, first-encountered order), and dense well-formedness of the
id assignment is preserved. -/
theorem add_appends_and_registers_labels (t : ner_trainer) (inst : ner_training_instance) :
    (t.add inst).size = t.size + 1 ∧
    (t.add inst).sentences = t.sentences ++ [inst.tokens] ∧
    (t.add inst).chunks = t.chunks ++ [inst.chunks] ∧
    (∃ ids, (t.add inst).chunk_labels = t.chunk_labels ++ [ids] ∧
      List.Forall₂ (fun s id => (t.add inst).label_to_id.lookup s = some id)
        inst.chunk_labels ids) ∧
    (t.add inst).label_to_id =
      t.label_to_id ++ newLabelEntries t.label_to_id inst.chunk_labels ∧
    (∀ s id, t.label_to_id.lookup s = some id →
      (t.add inst).label_to_id.lookup s = some id) ∧
    (wellFormedMap t.label_to_id → wellFormedMap (t.add inst).label_to_id) := by
refine ⟨?_, rfl, rfl, ?_, ?_, ?_, ?_⟩
· simp [ner_trainer.add, ner_trainer.size]
· exact ⟨(getLabelIds t.label_to_id inst.chunk_labels).1, rfl,
    getLabelIds_lookup inst.chunk_labels t.label_to_id⟩
· exact getLabelIds_map_eq inst.chunk_labels t.label_to_id
· intro s id h
  show (getLabelIds t.label_to_id inst.chunk_labels).2.lookup s = some id
  rw [getLabelIds_map_eq]
  exact lookup_append_some _ _ s id h
· intro h
  exact getLabelIds_wellFormed inst.chunk_labels t.label_to_id h

/-- Witness for C7 at a concrete trainer: adding an instance with the
labels `["X", "Y", "X"]` to a fresh trainer yields a well-formed label
map (here `X` gets id 0 and `Y` id 1). -/
theorem add_appends_and_registers_labels_witness :
    wellFormedMap (ner_trainer.init.add
      ⟨["a", "b", "c"], [(0, 1), (1, 2), (2, 3)], ["X", "Y", "X"]⟩).label_to_id ∧
    (ner_trainer.init.add
      ⟨["a", "b", "c"], [(0, 1), (1, 2), (2, 3)], ["X", "Y", "X"]⟩).size = 0 + 1 := by
have h := add_appends_and_registers_labels ner_trainer.init
  ⟨["a", "b", "c"], [(0, 1), (1, 2), (2, 3)], ["X", "Y", "X"]⟩
exact ⟨h.2.2.2.2.2.2 (fun i => absurd i.isLt (by simp [ner_trainer.init])), h.1⟩

end Mitie

namespace Mitie

/-! ### Bulk adds: success characterisation of the entity-adding fold -/

theorem addEntitiesFold_ok_elim (pairs : List ((Nat × Nat) × String))
    (p q : ner_training_instance) (h : addEntitiesFold p pairs = .ok q) :
    q.tokens = p.tokens ∧
    q.chunks = p.chunks ++ pairs.map Prod.fst ∧
    q.chunk_labels = p.chunk_labels ++ pairs.map Prod.snd ∧
    (∀ r ∈ pairs.map Prod.fst, rangeOk p.tokens.length r) ∧
    List.Pairwise (fun a b => spansOverlap a b = false) (pairs.map Prod.fst) ∧
    (∀ r ∈ pairs.map Prod.fst, ∀ c ∈ p.chunks, spansOverlap r c = false) := by
induction pairs generalizing p with
| nil =>
  obtain rfl : p = q := by
    rw [addEntitiesFold, List.foldlM_nil] at h
    exact (Except.ok.injEq _ _).mp h
  simp [rangeOk]
| cons rl rest ih =>
  obtain ⟨⟨a, b⟩, l⟩ := rl
  rw [addEntitiesFold, List.foldlM_cons] at h
  cases hstep : (p.add_entity_range (a, b) l) with
  | error e =>
    rw [hstep] at h
    exact absurd h (by simp [Bind.bind, Except.bind])
  | ok p2 =>
    rw [hstep] at h
    have h2 : addEntitiesFold p2 rest = .ok q := by
      rw [addEntitiesFold]
      simpa [Bind.bind, Except.bind] using h
    rw [ner_training_instance.add_entity_range] at hstep
    obtain ⟨htok, hch, hlb, hne, hle, hov⟩ := add_entity_ok_elim p a (b - a) l p2 hstep
    have hab : a < b := by omega
    have hsum : a + (b - a) = b := by omega
    rw [hsum] at hch hle hov
    obtain ⟨qtok, qch, qlb, qok, qpw, qov⟩ := ih p2 h2
    have hchsub : ∀ c ∈ p.chunks, c ∈ p2.chunks := by
      intro c hc
      rw [hch]
      exact List.mem_append_left _ hc
    have hmem_ab : (a, b) ∈ p2.chunks := by
      rw [hch]
      simp
    refine ⟨by rw [qtok, htok], ?_, ?_, ?_, ?_, ?_⟩
    · rw [qch, hch, List.map_cons, List.append_assoc]
      rfl
    · rw [qlb, hlb, List.map_cons, List.append_assoc]
      rfl
    · intro r hr
      rw [List.map_cons] at hr
      rcases List.mem_cons.mp hr with rfl | hr2
      · exact ⟨hab, hle⟩
      · have := qok r hr2
        rwa [htok] at this
    · rw [List.map_cons]
      refine List.pairwise_cons.mpr ⟨?_, qpw⟩
      intro r hr2
      rw [spansOverlap_comm]
      exact qov r hr2 (a, b) hmem_ab
    · intro r hr c hc
      rw [List.map_cons] at hr
      rcases List.mem_cons.mp hr with rfl | hr2
      · exact hov c hc
      · exact qov r hr2 c (hchsub c hc)

theorem add_bulk_ok_elim (t : ner_trainer) (tokens : List String)
    (ranges : List (Nat × Nat)) (labels : List String) (t2 : ner_trainer)
    (h : t.add_bulk tokens ranges labels = .ok t2) :
    bulkValid tokens ranges labels ∧
    ∃ inst, addEntitiesFold (ner_training_instance.mkInstance tokens)
        (ranges.zip labels) = .ok inst ∧
      t2 = t.add inst ∧ inst.tokens = tokens ∧ inst.chunks = ranges ∧
      inst.chunk_labels = labels := by
rw [ner_trainer.add_bulk] at h
split at h
case isFalse => exact absurd h (by simp)
case isTrue hlen =>
  cases hfold : addEntitiesFold (ner_training_instance.mkInstance tokens) (ranges.zip labels) with
  | error e => rw [hfold] at h; exact absurd h (by simp)
  | ok inst =>
    rw [hfold] at h
    obtain rfl : t2 = t.add inst := ((Except.ok.injEq _ _).mp h).symm
    obtain ⟨htok, hch, hlb, hok, hpw, -⟩ := addEntitiesFold_ok_elim _ _ _ hfold
    have hfst : (ranges.zip labels).map Prod.fst = ranges :=
      List.map_fst_zip ranges labels (by omega)
    have hsnd : (ranges.zip labels).map Prod.snd = labels :=
      List.map_snd_zip ranges labels (by omega)
    rw [hfst] at hch hok hpw
    rw [hsnd] at hlb
    simp only [ner_training_instance.mkInstance, List.nil_append] at htok hch hlb hok
    exact ⟨⟨hlen, hok, hpw⟩, inst, rfl, rfl, htok, hch, hlb⟩

theorem add_batch_fold_invalid_mem
    (l : List (List String × List (Nat × Nat) × List String)) (t : ner_trainer)
    (h : ∃ x ∈ l, ¬ bulkValid x.1 x.2.1 x.2.2) :
    ∃ e, l.foldlM (fun tr x => tr.add_bulk x.1 x.2.1 x.2.2) t = .error e := by
induction l generalizing t with
| nil => obtain ⟨x, hx, -⟩ := h; cases hx
| cons y ys ih =>
  rw [List.foldlM_cons]
  cases hstep : t.add_bulk y.1 y.2.1 y.2.2 with
  | error e => exact ⟨e, by simp [Bind.bind, Except.bind]⟩
  | ok t2 =>
    obtain ⟨x, hx, hinv⟩ := h
    rcases List.mem_cons.mp hx with rfl | hx2
    · exact absurd (add_bulk_ok_elim t x.1 x.2.1 x.2.2 t2 hstep).1 hinv
    · obtain ⟨e, he⟩ := ih t2 ⟨x, hx2, hinv⟩
      refine ⟨e, ?_⟩
      simpa [Bind.bind, Except.bind] using he

/-! ### Claim C4: invalid bulk adds fail whole, corpus untouched -/

/-- C4: the single-sentence bulk `add` fails whole whenever the
`ranges`/`labels` lengths mismatch, some range is zero-length or out of
bounds, or two ranges overlap; the batch overload fails whole whenever
any of its instances is invalid in that sense.  Both are
`Except`-valued state transformers, so a failing call produces no new
trainer state at all — the corpus is untouched. -/
theorem invalid_bulk_add_fails (t : ner_trainer) (tokens : List String)
    (ranges : List (Nat × Nat)) (labels : List String)
    (tks : List (List String)) (rgs : List (List (Nat × Nat)))
    (lbs : List (List String)) :
    ((ranges.length ≠ labels.length ∨ (∃ r ∈ ranges, ¬ rangeOk tokens.length r) ∨
        ¬ List.Pairwise (fun a b => spansOverlap a b = false) ranges) →
      ∃ e, t.add_bulk tokens ranges labels = .error e) ∧
    ((∃ x ∈ tks.zip (rgs.zip lbs), ¬ bulkValid x.1 x.2.1 x.2.2) →
      ∃ e, t.add_batch tks rgs lbs = .error e) := by
constructor
· intro hbad
  cases hres : t.add_bulk tokens ranges labels with
  | error e => exact ⟨e, rfl⟩
  | ok t2 =>
    obtain ⟨⟨h1, h2, h3⟩, -⟩ := add_bulk_ok_elim t tokens ranges labels t2 hres
    rcases hbad with hb | hb | hb
    · exact absurd h1 hb
    · obtain ⟨r, hr, hnr⟩ := hb
      exact absurd (h2 r hr) hnr
    · exact absurd h3 hb
· intro hbad
  exact add_batch_fold_invalid_mem (tks.zip (rgs.zip lbs)) t hbad

/-- Witness for C4 at concrete arguments: a bulk `add` whose `ranges`
and `labels` lengths differ fails. -/
theorem invalid_bulk_add_fails_witness :
    ∃ e, ner_trainer.init.add_bulk ["a"] [(0, 1)] [] = .error e :=
(invalid_bulk_add_fails ner_trainer.init ["a"] [(0, 1)] [] [] [] []).1
  (Or.inl (by decide))

end Mitie

namespace Mitie

/-! ### Claim C6: bulk adds equal the instance-wise composition -/

theorem addEntitiesFold_eq_seq (ranges : List (Nat × Nat)) (labels : List String)
    (p : ner_training_instance) (hlen : ranges.length = labels.length) :
    addEntitiesFold p (ranges.zip labels) = addEntitiesSeq p ranges labels := by
induction ranges generalizing labels p with
| nil =>
  obtain rfl : labels = [] := List.length_eq_zero.mp hlen.symm
  rfl
| cons r rs ih =>
  cases labels with
  | nil => simp at hlen
  | cons l ls =>
    rw [List.zip_cons_cons, addEntitiesFold, List.foldlM_cons]
    cases hstep : p.add_entity_range r l with
    | error e =>
      rw [addEntitiesSeq, hstep]
      simp [Bind.bind, Except.bind]
    | ok p2 =>
      rw [addEntitiesSeq, hstep]
      simp only [Bind.bind, Except.bind]
      exact ih ls p2 (by simpa using hlen)

/-- C6: with parallel `ranges`/`labels`, the single-sentence bulk `add`
computes exactly the composition the specification describes —
construct `ner_training_instance(tokens)`, `add_entity` each pair in
order, then `add` the instance; and with parallel outer collections the
batch overload computes exactly the sequential per-instance bulk
adds. -/
theorem bulk_add_equals_instancewise (t : ner_trainer) (tokens : List String)
    (ranges : List (Nat × Nat)) (labels : List String)
    (tks : List (List String)) (rgs : List (List (Nat × Nat)))
    (lbs : List (List String)) :
    (ranges.length = labels.length →
      t.add_bulk tokens ranges labels = add_bulk_spec t tokens ranges labels) ∧
    (tks.length = rgs.length → rgs.length = lbs.length →
      t.add_batch tks rgs lbs = add_batch_spec t tks rgs lbs) := by
constructor
· intro hlen
  rw [ner_trainer.add_bulk, add_bulk_spec, if_pos hlen, if_pos hlen]
  rw [addEntitiesFold_eq_seq ranges labels _ hlen]
  cases addEntitiesSeq (ner_training_instance.mkInstance tokens) ranges labels with
  | error e => simp [Except.map]
  | ok inst => simp [Except.map]
· induction tks generalizing rgs lbs t with
  | nil =>
    intro h1 h2
    obtain rfl : rgs = [] := List.length_eq_zero.mp h1.symm
    obtain rfl : lbs = [] := List.length_eq_zero.mp h2.symm
    rw [ner_trainer.add_batch]
    simp only [add_batch_spec, List.zip_nil_left, List.foldlM_nil]
    rfl
  | cons tk tks2 ih =>
    intro h1 h2
    cases rgs with
    | nil => simp at h1
    | cons rg rgs2 =>
      cases lbs with
      | nil => simp at h2
      | cons lb lbs2 =>
        rw [ner_trainer.add_batch, List.zip_cons_cons, List.zip_cons_cons,
          List.foldlM_cons]
        cases hstep : t.add_bulk tk rg lb with
        | error e =>
          rw [add_batch_spec, hstep]
          simp [Bind.bind, Except.bind]
        | ok t2 =>
          rw [add_batch_spec, hstep]
          simp only [Bind.bind, Except.bind]
          have := ih t2 rgs2 lbs2 (by simpa using h1) (by simpa using h2)
          rw [ner_trainer.add_batch] at this
          exact this

/-- Witness for C6 at concrete arguments: on a fresh trainer, one bulk
`add` of a two-token sentence with one labelled span equals the
instance-wise composition. -/
theorem bulk_add_equals_instancewise_witness :
    ner_trainer.init.add_bulk ["a", "b"] [(0, 1)] ["X"] =
      add_bulk_spec ner_trainer.init ["a", "b"] [(0, 1)] ["X"] :=
(bulk_add_equals_instancewise ner_trainer.init ["a", "b"] [(0, 1)] ["X"]
  [] [] []).1 rfl

/-! ### Claim C8: the corpus invariant is preserved -/

theorem forall₂_concat {α β : Type} {R : α → β → Prop} {l1 : List α} {l2 : List β}
    (h : List.Forall₂ R l1 l2) {a : α} {b : β} (hab : R a b) :
    List.Forall₂ R (l1 ++ [a]) (l2 ++ [b]) := by
induction h with
| nil => exact List.Forall₂.cons hab List.Forall₂.nil
| cons hxy htail ih => exact List.Forall₂.cons hxy ih

theorem corpusInv_add (t : ner_trainer) (inst : ner_training_instance)
    (h : corpusInv t) (hinst : inst.chunks.length = inst.chunk_labels.length) :
    corpusInv (t.add inst) := by
obtain ⟨h1, h2⟩ := h
constructor
· show (t.sentences ++ [inst.tokens]).length = (t.chunks ++ [inst.chunks]).length
  simp [h1]
· show List.Forall₂ _ (t.chunks ++ [inst.chunks])
    (t.chunk_labels ++ [(getLabelIds t.label_to_id inst.chunk_labels).1])
  refine forall₂_concat h2 ?_
  rw [getLabelIds_ids_length]
  exact hinst

theorem corpusInv_add_bulk (t : ner_trainer) (tokens : List String)
    (ranges : List (Nat × Nat)) (labels : List String) (t2 : ner_trainer)
    (h : corpusInv t) (hok : t.add_bulk tokens ranges labels = .ok t2) :
    corpusInv t2 := by
obtain ⟨⟨hlen, -, -⟩, inst, -, rfl, -, hch, hlb⟩ :=
  add_bulk_ok_elim t tokens ranges labels t2 hok
exact corpusInv_add t inst h (by rw [hch, hlb]; exact hlen)

theorem corpusInv_batch_fold (l : List (List String × List (Nat × Nat) × List String))
    (t t2 : ner_trainer) (h : corpusInv t)
    (hfold : l.foldlM (fun tr x => tr.add_bulk x.1 x.2.1 x.2.2) t = .ok t2) :
    corpusInv t2 := by
induction l generalizing t with
| nil =>
  rw [List.foldlM_nil] at hfold
  obtain rfl : t = t2 := (Except.ok.injEq _ _).mp hfold
  exact h
| cons y ys ih =>
  rw [List.foldlM_cons] at hfold
  cases hstep : t.add_bulk y.1 y.2.1 y.2.2 with
  | error e =>
    rw [hstep] at hfold
    exact absurd hfold (by simp [Bind.bind, Except.bind])
  | ok tm =>
    rw [hstep] at hfold
    have hm : corpusInv tm := corpusInv_add_bulk t y.1 y.2.1 y.2.2 tm h hstep
    exact ih tm hm (by simpa [Bind.bind, Except.bind] using hfold)

/-- C8: every trainer operation preserves the corpus invariant — the
`sentences`, `chunks` and `chunk_labels` collections stay parallel, and
each instance's span and label lists stay parallel.  (`train()` is
`const`: it reads the corpus and returns only the extractor, so it
cannot disturb the invariant.) -/
theorem trainer_operations_preserve_corpusInv :
    (∀ (t : ner_trainer) (inst : ner_training_instance), corpusInv t →
      inst.chunks.length = inst.chunk_labels.length → corpusInv (t.add inst)) ∧
    (∀ (t : ner_trainer) (tokens : List String) (ranges : List (Nat × Nat))
      (labels : List String) (t2 : ner_trainer), corpusInv t →
      t.add_bulk tokens ranges labels = .ok t2 → corpusInv t2) ∧
    (∀ (t : ner_trainer) (tks : List (List String))
      (rgs : List (List (Nat × Nat))) (lbs : List (List String))
      (t2 : ner_trainer), corpusInv t →
      t.add_batch tks rgs lbs = .ok t2 → corpusInv t2) ∧
    (∀ (t : ner_trainer) (b : Rat) (t2 : ner_trainer), corpusInv t →
      t.set_beta b = .ok t2 → corpusInv t2) ∧
    (∀ (t : ner_trainer) (n : Nat) (t2 : ner_trainer), corpusInv t →
      t.set_num_threads n = .ok t2 → corpusInv t2) := by
refine ⟨corpusInv_add, corpusInv_add_bulk, ?_, ?_, ?_⟩
· intro t tks rgs lbs t2 h hok
  exact corpusInv_batch_fold (tks.zip (rgs.zip lbs)) t t2 h hok
· intro t b t2 h hok
  rw [ner_trainer.set_beta] at hok
  split at hok
  case isTrue => exact absurd hok (by simp)
  case isFalse =>
    obtain rfl : t2 = ⟨b, t.num_threads, t.label_to_id, t.sentences, t.chunks, t.chunk_labels⟩ :=
      ((Except.ok.injEq _ _).mp hok).symm
    exact h
· intro t n t2 h hok
  rw [ner_trainer.set_num_threads] at hok
  split at hok
  case isTrue => exact absurd hok (by simp)
  case isFalse =>
    obtain rfl : t2 = ⟨t.beta, n, t.label_to_id, t.sentences, t.chunks, t.chunk_labels⟩ :=
      ((Except.ok.injEq _ _).mp hok).symm
    exact h

/-- Witness for C8 at a concrete trainer: the invariant holds after
adding one annotated instance to a fresh trainer. -/
theorem trainer_operations_preserve_corpusInv_witness :
    corpusInv (ner_trainer.init.add ⟨["a", "b"], [(0, 1)], ["X"]⟩) :=
trainer_operations_preserve_corpusInv.1 ner_trainer.init
  ⟨["a", "b"], [(0, 1)], ["X"]⟩ ⟨rfl, List.Forall₂.nil⟩ rfl

end Mitie
